import Mathlib

/-!
Verification of the AI request resilience and context-budgeting layer of the
`ai-scrum-master` backend: the circuit breaker (`src/backend/src/common/utils/circuit-breaker.ts`),
the retrying/caching AI orchestrator (`src/backend/src/modules/ai/ai.service.ts`),
the cost accountant (`src/backend/src/modules/ai/types/ai.types.ts`), and the
context budgeter (`ContextBuilderService.truncateToFit`).

Time is modelled as a natural number of milliseconds: each entry point that
reads `Date.now()` receives the instant as an explicit `now` argument.
-/

namespace AIScrumMaster

/-! ## Circuit breaker (`circuit-breaker.ts`) -/

/-- Embeds `CircuitBreakerOptions` from `circuit-breaker.ts` (lines 3-9). -/
structure CircuitBreakerOptions where
  name : String
  failureThreshold : Nat
  successThreshold : Nat
  timeout : Nat
  resetTimeout : Nat
deriving Repr, DecidableEq

/-- Embeds `CircuitState` enum (lines 11-15). -/
inductive CircuitState where
  | CLOSED
  | OPEN
  | HALF_OPEN
deriving Repr, DecidableEq

/-- The mutable fields of class `CircuitBreaker` (lines 21-29) together with its
immutable `options`. -/
structure CircuitBreaker where
  options : CircuitBreakerOptions
  state : CircuitState := .CLOSED
  failureCount : Nat := 0
  successCount : Nat := 0
  lastFailureTime : Nat := 0
  nextRetryTime : Nat := 0
deriving Repr, DecidableEq

namespace CircuitBreaker

/-- Embeds `transitionTo` (lines 86-107): sets the new state; entering OPEN sets
`nextRetryTime = now + resetTimeout`; entering HALF_OPEN zeroes `successCount`;
entering CLOSED zeroes both counters. -/
def transitionTo (cb : CircuitBreaker) (now : Nat) (newState : CircuitState) : CircuitBreaker :=
  match newState with
  | .OPEN => { cb with state := .OPEN, nextRetryTime := now + cb.options.resetTimeout }
  | .HALF_OPEN => { cb with state := .HALF_OPEN, successCount := 0 }
  | .CLOSED => { cb with state := .CLOSED, failureCount := 0, successCount := 0 }

/-- Embeds `onSuccess` (lines 60-69). -/
def onSuccess (cb : CircuitBreaker) (now : Nat) : CircuitBreaker :=
  let cb := { cb with failureCount := 0 }
  if cb.state = .HALF_OPEN then
    let cb := { cb with successCount := cb.successCount + 1 }
    if cb.options.successThreshold ≤ cb.successCount then cb.transitionTo now .CLOSED
    else cb
  else cb

/-- Embeds `onFailure` (lines 71-84). -/
def onFailure (cb : CircuitBreaker) (now : Nat) : CircuitBreaker :=
  let cb := { cb with
    failureCount := cb.failureCount + 1
    lastFailureTime := now
    successCount := 0 }
  if cb.state = .HALF_OPEN then cb.transitionTo now .OPEN
  else if cb.state = .CLOSED ∧ cb.options.failureThreshold ≤ cb.failureCount then
    cb.transitionTo now .OPEN
  else cb

/-- Observable outcome of one `execute` call: the operation's result, the
operation's error re-raised after `onFailure`, or `CircuitBreakerOpenError`
raised without running the operation. -/
inductive ExecOutcome (α ε : Type) where
  | ok (a : α)
  | opError (e : ε)
  | circuitOpenError
deriving Repr, DecidableEq

/-- One `execute` call (lines 39-58), with the wrapped operation's behaviour
supplied as `op : Except ε α`.  Returns the updated breaker, the outcome, and
whether the operation was invoked. -/
def execute (cb : CircuitBreaker) (now : Nat) (op : Except ε α) :
    CircuitBreaker × ExecOutcome α ε × Bool :=
  if cb.state = .OPEN ∧ now < cb.nextRetryTime then
    (cb, .circuitOpenError, false)
  else
    let cb := if cb.state = .OPEN then cb.transitionTo now .HALF_OPEN else cb
    match op with
    | .ok a => (cb.onSuccess now, .ok a, true)
    | .error e => (cb.onFailure now, .opError e, true)

/-- Breaker state after a sequence of failed `execute` calls at the given
instants, threading only the breaker. -/
def runFailures (cb : CircuitBreaker) (times : List Nat) (e : ε) : CircuitBreaker :=
  times.foldl (fun c t => (c.execute t (Except.error e : Except ε Unit)).1) cb

/-- Breaker state after a sequence of successful `execute` calls. -/
def runSuccesses (cb : CircuitBreaker) (times : List Nat) : CircuitBreaker :=
  times.foldl (fun c t => (c.execute t (Except.ok () : Except Unit Unit)).1) cb

end CircuitBreaker

/-- The caller-supplied part of `CircuitBreakerFactory.getOrCreate`'s `options?`
argument (a `Partial<CircuitBreakerOptions>`; absent fields are defaulted). -/
structure PartialBreakerOptions where
  failureThreshold : Option Nat := none
  successThreshold : Option Nat := none
  timeout : Option Nat := none
  resetTimeout : Option Nat := none
deriving Repr, DecidableEq

/-- The `fullOptions` record built inside `getOrCreate` (lines 157-163):
defaults 5 / 2 / 30000 / 60000. -/
def mkFullOptions (name : String) (o : Option PartialBreakerOptions) : CircuitBreakerOptions :=
  { name := name
    failureThreshold := (o.bind (·.failureThreshold)).getD 5
    successThreshold := (o.bind (·.successThreshold)).getD 2
    timeout := (o.bind (·.timeout)).getD 30000
    resetTimeout := (o.bind (·.resetTimeout)).getD 60000 }

/-- The static `breakers` map of `CircuitBreakerFactory`, as an association
list in insertion order. -/
structure FactoryState where
  breakers : List (String × CircuitBreaker) := []
deriving Repr, DecidableEq

namespace CircuitBreakerFactory

/-- Embeds `CircuitBreakerFactory.getOrCreate` (lines 155-167): create the breaker
under `name` on first use, return the stored one afterwards. -/
def getOrCreate (s : FactoryState) (name : String) (options : Option PartialBreakerOptions) :
    FactoryState × CircuitBreaker :=
  match s.breakers.lookup name with
  | some b => (s, b)
  | none =>
      let b : CircuitBreaker := { options := mkFullOptions name options }
      ({ breakers := s.breakers ++ [(name, b)] }, b)

end CircuitBreakerFactory

/-! ## AI module types (`ai.types.ts`) -/

/-- Embeds `AIProvider` enum. -/
inductive AIProvider where
  | openai
  | anthropic
  | gemini
  | local
deriving Repr, DecidableEq

/-- Message roles of `ChatMessage`. -/
inductive ChatRole where
  | system
  | user
  | assistant
deriving Repr, DecidableEq

/-- Embeds `ChatMessage`. -/
structure ChatMessage where
  role : ChatRole
  content : String
deriving Repr, DecidableEq

/-- The `responseFormat` hint of a request. -/
inductive ResponseFormat where
  | text
  | json
deriving Repr, DecidableEq

/-- Embeds `AICompletionRequest`.  Optional fields are `Option`s; an absent `stream`
flag behaves as `false` (it is only read as a truthy test).  `temperature`
is a number kept abstract as an exact rational. -/
structure AICompletionRequest where
  messages : List ChatMessage
  model : Option String := none
  maxTokens : Option Nat := none
  temperature : Option ℚ := none
  stream : Bool := false
  responseFormat : Option ResponseFormat := none
deriving Repr, DecidableEq

/-- Finish reasons of a completion. -/
inductive FinishReason where
  | stop
  | length
  | contentFilter
  | error
deriving Repr, DecidableEq

/-- Embeds `TokenUsage`.  The cost is a number, modelled as an exact rational. -/
structure TokenUsage where
  promptTokens : Nat
  completionTokens : Nat
  totalTokens : Nat
  estimatedCost : ℚ
deriving Repr, DecidableEq

/-- Embeds `AICompletionResponse`; an absent `cached` flag behaves as `false`. -/
structure AICompletionResponse where
  content : String
  finishReason : FinishReason
  usage : TokenUsage
  model : String
  cached : Bool := false
deriving Repr, DecidableEq

/-- Embeds `MODEL_PRICING` (ai.types.ts lines 56-72): input/output cost per million
tokens, keyed by model name. -/
def MODEL_PRICING : List (String × ℚ × ℚ) :=
  [("gpt-4o", 2.50, 10.00),
   ("gpt-4o-mini", 0.15, 0.60),
   ("gpt-4-turbo", 10.00, 30.00),
   ("gpt-3.5-turbo", 0.50, 1.50),
   ("claude-3-5-sonnet-20241022", 3.00, 15.00),
   ("claude-3-5-haiku-20241022", 0.80, 4.00),
   ("claude-3-opus-20240229", 15.00, 75.00),
   ("gemini-1.5-pro", 1.25, 5.00),
   ("gemini-1.5-flash", 0.075, 0.30),
   ("gemini-1.5-flash-8b", 0.0375, 0.15),
   ("gemini-2.0-flash-exp", 0.00, 0.00)]

/-- JavaScript `Math.round` on a non-negative value: round half up. -/
def jsRound (q : ℚ) : ℤ := ⌊q + 1 / 2⌋

/-- Embeds `calculateCost` (ai.types.ts lines 74-83), with number arithmetic
modelled exactly in ℚ: per-million input/output rates from `MODEL_PRICING`,
defaults `{input: 5.0, output: 15.0}`, result rounded to 6 decimals. -/
def calculateCost (model : String) (promptTokens completionTokens : Nat) : ℚ :=
  let pricing := (MODEL_PRICING.lookup model).getD (5.0, 15.0)
  let inputCost := (promptTokens : ℚ) / 1000000 * pricing.1
  let outputCost := (completionTokens : ℚ) / 1000000 * pricing.2
  (jsRound ((inputCost + outputCost) * 1000000) : ℚ) / 1000000

/-- Embeds `MODEL_CONTEXT_LIMITS` (ai.types.ts lines 86-99). -/
def MODEL_CONTEXT_LIMITS : List (String × Nat) :=
  [("gpt-4o", 128000),
   ("gpt-4o-mini", 128000),
   ("gpt-4-turbo", 128000),
   ("gpt-3.5-turbo", 16385),
   ("claude-3-5-sonnet-20241022", 200000),
   ("claude-3-5-haiku-20241022", 200000),
   ("claude-3-opus-20240229", 200000),
   ("gemini-1.5-pro", 2000000),
   ("gemini-1.5-flash", 1000000),
   ("gemini-1.5-flash-8b", 1000000),
   ("gemini-2.0-flash-exp", 1000000)]

/-- Embeds `getContextLimit` (ai.types.ts lines 101-103): table lookup with
default 16000. -/
def getContextLimit (model : String) : Nat :=
  (MODEL_CONTEXT_LIMITS.lookup model).getD 16000

/-! ## AI service (`ai.service.ts`) -/

/-- An error reaching the retry loop's `catch`, as far as `AIService`
classifies it: whether it is a `CircuitBreakerOpenError`, and its optional
HTTP `status` field. -/
structure AIError where
  isCircuitOpen : Bool := false
  status : Option Nat := none
deriving Repr, DecidableEq

/-- Embeds `AIService.isNonRetryableError` (lines 425-429): status in
{400, 401, 403, 404}; an absent status is retryable. -/
def isNonRetryableError (e : AIError) : Bool :=
  match e.status with
  | some s => [400, 401, 403, 404].contains s
  | none => false

/-- The fields serialized by `getCacheKey` (lines 405-414). -/
structure CacheKey where
  messages : List ChatMessage
  model : Option String
  maxTokens : Option Nat
  temperature : Option ℚ
  responseFormat : Option ResponseFormat
deriving Repr, DecidableEq

/-- Embeds `getCacheKey` (lines 405-414): requests with identical
`{messages, model, maxTokens, temperature, responseFormat}` share a key. -/
def getCacheKey (r : AICompletionRequest) : CacheKey :=
  ⟨r.messages, r.model, r.maxTokens, r.temperature, r.responseFormat⟩

/-- The `responseCache` map: key ↦ (response, timestamp), insertion order. -/
abbrev ResponseCache := List (CacheKey × AICompletionResponse × Nat)

/-- Embeds `Map.get` on the response cache. -/
def cacheGet : ResponseCache → CacheKey → Option (AICompletionResponse × Nat)
  | [], _ => none
  | (k, v) :: rest, key => if k = key then some v else cacheGet rest key

/-- Embeds `Map.set` on the response cache (overwrite an existing key). -/
def cacheSet (c : ResponseCache) (key : CacheKey) (v : AICompletionResponse × Nat) :
    ResponseCache :=
  match c with
  | [] => [(key, v)]
  | (k, w) :: rest => if k = key then (key, v) :: rest else (k, w) :: cacheSet rest key v

/-- Embeds `CACHE_TTL_MS` (line 40): 5 minutes. -/
def CACHE_TTL_MS : Nat := 5 * 60 * 1000

/-- The body of `trackUsage`'s `try` block (lines 393-399): the recording
step, which may itself fail; `persistFails` abstracts that failure. -/
def trackUsageTry (persistFails : Bool) : Except AIError Unit :=
  if persistFails then Except.error {} else Except.ok ()

/-- Embeds `AIService.trackUsage` (lines 391-403): any error raised by the body is
caught and logged, never re-thrown. -/
def trackUsage (persistFails : Bool) : Except AIError Unit :=
  match trackUsageTry persistFails with
  | Except.ok _ => Except.ok ()
  | Except.error _ => Except.ok ()

/-- The options argument of `complete` (lines 92-99).  `provider`, `userId`
and `operation` only select the adapter (modelled separately by
`getProvider`) and label the usage log line; they are omitted here. -/
structure CompleteOptions where
  projectId : Option String := none
  useCache : Option Bool := none
  maxRetries : Option Nat := none
deriving Repr, DecidableEq

/-- The backoff delay of line 175: `min(1000 * 2^(attempt-1), 10000)` ms. -/
def backoffDelay (attempt : Nat) : Nat :=
  min (1000 * 2 ^ (attempt - 1)) 10000

instance {α β : Type} [DecidableEq α] [DecidableEq β] : DecidableEq (Except α β) := by
  intro a b
  cases a with
  | error ea =>
    cases b with
    | error eb =>
      exact decidable_of_iff (ea = eb) ⟨fun h => by rw [h], fun h => by injection h⟩
    | ok _ => exact isFalse (fun h => Except.noConfusion h)
  | ok va =>
    cases b with
    | error _ => exact isFalse (fun h => Except.noConfusion h)
    | ok vb =>
      exact decidable_of_iff (va = vb) ⟨fun h => by rw [h], fun h => by injection h⟩

/-- The observable outcome of one `complete` call: the final cache contents,
the returned response or thrown error, how many times the provider adapter
was invoked, and the sleeps performed between attempts. -/
structure CompleteResult where
  cache : ResponseCache
  result : Except AIError AICompletionResponse
  providerInvocations : Nat
  sleeps : List Nat
deriving Repr, DecidableEq

/-- Whether the attempt's outcome (of `circuitBreaker.execute(() =>
provider.complete(request))`) involved an actual provider invocation: a
`CircuitBreakerOpenError` is thrown by the breaker before the provider
runs. -/
def attemptInvokesProvider : Except AIError AICompletionResponse → Bool
  | Except.ok _ => true
  | Except.error e => !e.isCircuitOpen

/-- The `try` block of one iteration of `complete`'s retry loop (lines
135-160): run the breaker-wrapped provider call (outcome abstracted by
`outcomes attempt`), on success store in the cache (when caching applies)
and run `trackUsage` (when a `projectId` is given), returning the response.
Any error escapes to the loop's `catch`. -/
def completeAttempt (req : AICompletionRequest) (opts : CompleteOptions)
    (outcomes : Nat → Except AIError AICompletionResponse) (persistFails : Bool)
    (now : Nat) (attempt : Nat) (cache : ResponseCache) :
    ResponseCache × Except AIError AICompletionResponse :=
  match outcomes attempt with
  | Except.error e => (cache, Except.error e)
  | Except.ok response =>
      let cache' := if (opts.useCache.getD true) && !req.stream then
          cacheSet cache (getCacheKey req) (response, now) else cache
      match (if opts.projectId.isSome then trackUsage persistFails else Except.ok ()) with
      | Except.ok _ => (cache', Except.ok response)
      | Except.error e => (cache', Except.error e)

/-- The retry loop of `complete` (lines 133-181), for attempts
`attempt..maxRetries` (`fuel = maxRetries + 1 - attempt` iterations remain):
success returns at once; a `CircuitBreakerOpenError` or non-retryable error
is re-thrown at once; a retryable error before the last attempt sleeps
`backoffDelay attempt` and retries; the last attempt's error is re-thrown.
When the loop body never runs the final `throw lastError ?? new Error(...)`
throws the generic error. -/
def completeLoop (req : AICompletionRequest) (opts : CompleteOptions)
    (outcomes : Nat → Except AIError AICompletionResponse) (persistFails : Bool)
    (now : Nat) (maxRetries : Nat) : Nat → Nat → ResponseCache → CompleteResult
  | attempt, fuel + 1, cache =>
      let (cache', r) := completeAttempt req opts outcomes persistFails now attempt cache
      let inv := if attemptInvokesProvider (outcomes attempt) then 1 else 0
      match r with
      | Except.ok response => ⟨cache', Except.ok response, inv, []⟩
      | Except.error e =>
          if e.isCircuitOpen || isNonRetryableError e then
            ⟨cache', Except.error e, inv, []⟩
          else if attempt < maxRetries then
            let rest := completeLoop req opts outcomes persistFails now maxRetries
              (attempt + 1) fuel cache'
            ⟨rest.cache, rest.result, inv + rest.providerInvocations,
              backoffDelay attempt :: rest.sleeps⟩
          else ⟨cache', Except.error e, inv, []⟩
  | _, 0, cache => ⟨cache, Except.error {}, 0, []⟩

/-- The cache consultation of `complete` (lines 105-113): a stored response
younger than the TTL, when caching applies. -/
def cacheHit (cache : ResponseCache) (now : Nat) (req : AICompletionRequest)
    (useCache : Bool) : Option AICompletionResponse :=
  if useCache && !req.stream then
    match cacheGet cache (getCacheKey req) with
    | some (resp, ts) => if now - ts < CACHE_TTL_MS then some resp else none
    | none => none
  else none

/-- Embeds `AIService.complete` (lines 90-182) after provider resolution (modelled
separately by `getProvider`): consult the cache, else run the retry loop.
The context-size check of lines 115-124 only logs a warning and is omitted.
A cache hit returns the stored response with `cached = true` and no provider
invocation. -/
def AIService.complete (cache : ResponseCache) (now : Nat)
    (req : AICompletionRequest) (opts : CompleteOptions)
    (outcomes : Nat → Except AIError AICompletionResponse) (persistFails : Bool) :
    CompleteResult :=
  let useCache := opts.useCache.getD true
  let maxRetries := opts.maxRetries.getD 3
  match cacheHit cache now req useCache with
  | some resp => ⟨cache, Except.ok { resp with cached := true }, 0, []⟩
  | none => completeLoop req opts outcomes persistFails now maxRetries 1 maxRetries cache

/-- The providers map built by `onModuleInit` (lines 50-65), as the list of
registered provider keys in registration order: OpenAI, Anthropic, Gemini,
each present iff its adapter `isAvailable()`. -/
def registeredProviders (openaiAvail anthropicAvail geminiAvail : Bool) : List AIProvider :=
  (if openaiAvail then [AIProvider.openai] else []) ++
  (if anthropicAvail then [AIProvider.anthropic] else []) ++
  (if geminiAvail then [AIProvider.gemini] else [])

/-- The `defaultProvider` after `onModuleInit` (lines 36, 67-81): initially
OPENAI; when OPENAI is not registered, the first registered provider of the
priority order GEMINI, OPENAI, ANTHROPIC; unchanged when none is. -/
def initDefaultProvider (openaiAvail anthropicAvail geminiAvail : Bool) : AIProvider :=
  let providers := registeredProviders openaiAvail anthropicAvail geminiAvail
  if providers.contains AIProvider.openai then AIProvider.openai
  else
    match [AIProvider.gemini, AIProvider.openai, AIProvider.anthropic].find?
        (fun p => providers.contains p) with
    | some p => p
    | none => AIProvider.openai

/-- Embeds `AIService.getProvider` (lines 375-389), returning the resolved provider
key: the preferred (or default) key when registered, else the first
registered provider (`Array.from(values())[0]`), else the thrown
`'No AI provider available'` error. -/
def getProvider (providers : List AIProvider) (defaultProvider : AIProvider)
    (preferred : Option AIProvider) : Except String AIProvider :=
  let providerKey := preferred.getD defaultProvider
  if providers.contains providerKey then Except.ok providerKey
  else
    match providers.head? with
    | some p => Except.ok p
    | none => Except.error "No AI provider available"

/-! ## Context budgeter (`ContextBuilderService`, `src/unnamed/part_012`) -/

/-- Embeds the join `messages.map((m) => m.content).join('\n')` of `estimateTokens`
(part_012 lines 508-512). -/
def joinContents : List ChatMessage → String
  | [] => ""
  | [m] => m.content
  | m :: rest => m.content ++ "\n" ++ joinContents rest

/-- Embeds `estimateTokens` (part_012 lines 508-512): the provider's `countTokens`
(abstracted as `tk`) applied to the contents joined by newlines. -/
def estimateTokens (tk : String → Nat) (messages : List ChatMessage) : Nat :=
  tk (joinContents messages)

/-- The re-insertion loop of `truncateToFit` (part_012 lines 488-495):
candidates are the interior messages newest first; each is tested appended
after the already-accepted messages and before the last message
(`[systemMessage, ...truncated.slice(1), middleMessages[i], lastMessage]`),
and on acceptance is prepended to the accepted block
(`truncated.splice(1, 0, ...)`); the scan stops at the first rejection. -/
def truncateLoop (tk : String → Nat) (systemMessage lastMessage : ChatMessage)
    (maxInputTokens : ℤ) : List ChatMessage → List ChatMessage → List ChatMessage
  | [], acc => acc
  | m :: rest, acc =>
      if (estimateTokens tk (systemMessage :: (acc ++ [m, lastMessage])) : ℤ)
          ≤ maxInputTokens then
        truncateLoop tk systemMessage lastMessage maxInputTokens rest (m :: acc)
      else acc

/-- Embeds `truncateToFit` (part_012 lines 461-505), for an argument list of the
shape `systemMessage :: middle ++ [lastMessage]` (first element the system
message, last element the newest message, as `buildMessages` produces).
`maxInputTokens = getContextLimit(model) - reserveOutputTokens` may be
negative, hence ℤ. -/
def truncateToFit (tk : String → Nat) (model : String) (reserveOutputTokens : Nat)
    (systemMessage : ChatMessage) (middle : List ChatMessage)
    (lastMessage : ChatMessage) : List ChatMessage :=
  let maxInputTokens : ℤ := (getContextLimit model : ℤ) - reserveOutputTokens
  let messages := systemMessage :: middle ++ [lastMessage]
  if (estimateTokens tk messages : ℤ) ≤ maxInputTokens then messages
  else
    systemMessage ::
      truncateLoop tk systemMessage lastMessage maxInputTokens middle.reverse []
      ++ [lastMessage]

/-- Modelled from the spec (§4.5): the greedy re-insertion described there —
scan the interior newest→oldest, accept a message only if the accumulated
selection including it (system message, the candidate and the messages
already accepted, final message) still fits the budget, and stop at the
first interior message that does not fit. -/
def truncateSpecPick (tk : String → Nat) (systemMessage lastMessage : ChatMessage)
    (budget : ℤ) : List ChatMessage → List ChatMessage → List ChatMessage
  | [], acc => acc
  | m :: rest, acc =>
      if (estimateTokens tk (systemMessage :: m :: (acc ++ [lastMessage])) : ℤ)
          ≤ budget then
        truncateSpecPick tk systemMessage lastMessage budget rest (m :: acc)
      else acc

/-- Modelled from the spec (§4.5): return the list unchanged when it fits
`getContextLimit(model) - reserveOutputTokens`; otherwise keep the system
and final messages and greedily re-insert interior messages newest first;
when nothing fits, `[system, final]` is returned even if it alone exceeds
the budget. -/
def truncateToFitSpec (tk : String → Nat) (model : String) (reserveOutputTokens : Nat)
    (systemMessage : ChatMessage) (middle : List ChatMessage)
    (lastMessage : ChatMessage) : List ChatMessage :=
  let budget : ℤ := (getContextLimit model : ℤ) - reserveOutputTokens
  let messages := systemMessage :: middle ++ [lastMessage]
  if (estimateTokens tk messages : ℤ) ≤ budget then messages
  else
    systemMessage ::
      truncateSpecPick tk systemMessage lastMessage budget middle.reverse []
      ++ [lastMessage]

/-! ## Circuit breaker lemmas -/

namespace CircuitBreaker

lemma runFailures_append {ε : Type} (cb : CircuitBreaker) (l₁ l₂ : List Nat) (e : ε) :
    cb.runFailures (l₁ ++ l₂) e = (cb.runFailures l₁ e).runFailures l₂ e := by
  simp [runFailures, List.foldl_append]

lemma runSuccesses_append (cb : CircuitBreaker) (l₁ l₂ : List Nat) :
    cb.runSuccesses (l₁ ++ l₂) = (cb.runSuccesses l₁).runSuccesses l₂ := by
  simp [runSuccesses, List.foldl_append]

/-- A failed call in CLOSED increments `failureCount` and opens the breaker
exactly when the threshold is reached. -/
lemma execute_closed_failure {ε : Type} (cb : CircuitBreaker) (t : Nat) (e : ε)
    (hst : cb.state = .CLOSED) :
    (cb.execute t (Except.error e : Except ε Unit)).1 =
      if cb.options.failureThreshold ≤ cb.failureCount + 1 then
        { cb with
          state := .OPEN
          failureCount := cb.failureCount + 1
          lastFailureTime := t
          successCount := 0
          nextRetryTime := t + cb.options.resetTimeout }
      else
        { cb with
          failureCount := cb.failureCount + 1
          lastFailureTime := t
          successCount := 0 } := by
  simp only [execute, onFailure, transitionTo, hst]
  split <;> simp_all

/-- A successful call in HALF_OPEN increments `successCount` and closes the
breaker exactly when the threshold is reached. -/
lemma execute_halfopen_success (cb : CircuitBreaker) (t : Nat)
    (hst : cb.state = .HALF_OPEN) :
    (cb.execute t (Except.ok () : Except Unit Unit)).1 =
      if cb.options.successThreshold ≤ cb.successCount + 1 then
        { cb with state := .CLOSED, failureCount := 0, successCount := 0 }
      else
        { cb with failureCount := 0, successCount := cb.successCount + 1 } := by
  simp only [execute, onSuccess, transitionTo, hst]
  split <;> simp_all

/-- While the failure threshold is not yet reached, consecutive failures keep
the breaker CLOSED and accumulate `failureCount`. -/
lemma runFailures_closed {ε : Type} (e : ε) :
    ∀ (ts : List Nat) (cb : CircuitBreaker), cb.state = .CLOSED →
      cb.failureCount + ts.length < cb.options.failureThreshold →
      (cb.runFailures ts e).state = .CLOSED ∧
      (cb.runFailures ts e).failureCount = cb.failureCount + ts.length ∧
      (cb.runFailures ts e).options = cb.options := by
  intro ts
  induction ts with
  | nil => intro cb h1 _; simpa [runFailures] using h1
  | cons t ts ih =>
    intro cb h1 h2
    have hstep : cb.runFailures (t :: ts) e
        = ((cb.execute t (Except.error e : Except ε Unit)).1).runFailures ts e := rfl
    have hne : ¬ cb.options.failureThreshold ≤ cb.failureCount + 1 := by
      simp at h2; omega
    rw [hstep, execute_closed_failure cb t e h1, if_neg hne]
    have h := ih
      { cb with
        failureCount := cb.failureCount + 1
        lastFailureTime := t
        successCount := 0 } h1 (by simp at h2 ⊢; omega)
    simpa using And.intro h.1 (And.intro (by rw [h.2.1]; simp; omega) h.2.2)

/-- While the success threshold is not yet reached, consecutive successes keep
the breaker HALF_OPEN and accumulate `successCount`. -/
lemma runSuccesses_halfopen :
    ∀ (ts : List Nat) (cb : CircuitBreaker), cb.state = .HALF_OPEN →
      cb.successCount + ts.length < cb.options.successThreshold →
      (cb.runSuccesses ts).state = .HALF_OPEN ∧
      (cb.runSuccesses ts).successCount = cb.successCount + ts.length ∧
      (cb.runSuccesses ts).options = cb.options := by
  intro ts
  induction ts with
  | nil => intro cb h1 _; simpa [runSuccesses] using h1
  | cons t ts ih =>
    intro cb h1 h2
    have hstep : cb.runSuccesses (t :: ts)
        = ((cb.execute t (Except.ok () : Except Unit Unit)).1).runSuccesses ts := rfl
    have hne : ¬ cb.options.successThreshold ≤ cb.successCount + 1 := by
      simp at h2; omega
    rw [hstep, execute_halfopen_success cb t h1, if_neg hne]
    have h := ih
      { cb with
        failureCount := 0
        successCount := cb.successCount + 1 } h1 (by simp at h2 ⊢; omega)
    simpa using And.intro h.1 (And.intro (by rw [h.2.1]; simp; omega) h.2.2)

/-- An OPEN breaker before its retry time rejects without running the
operation and without any state change. -/
lemma execute_open_before_retry {γ δ : Type} (cb : CircuitBreaker) (now : Nat)
    (op : Except δ γ) (hst : cb.state = .OPEN) (hlt : now < cb.nextRetryTime) :
    cb.execute now op = (cb, .circuitOpenError, false) := by
  simp [execute, hst, hlt]

/-- An OPEN breaker at or past its retry time moves to HALF_OPEN and runs the
operation. -/
lemma execute_open_retry_elapsed {γ δ : Type} (cb : CircuitBreaker) (now : Nat)
    (op : Except δ γ) (hst : cb.state = .OPEN) (hge : cb.nextRetryTime ≤ now) :
    cb.execute now op =
      match op with
      | .ok a => ((cb.transitionTo now .HALF_OPEN).onSuccess now, .ok a, true)
      | .error e => ((cb.transitionTo now .HALF_OPEN).onFailure now, .opError e, true) := by
  have hnlt : ¬ now < cb.nextRetryTime := by omega
  simp only [execute, hst, hnlt, and_false, if_false, if_true, true_and]
  split <;> simp

/-- A failed call in HALF_OPEN reopens the breaker at `now + resetTimeout`. -/
lemma execute_halfopen_failure {ε : Type} (cb : CircuitBreaker) (now : Nat) (e : ε)
    (hst : cb.state = .HALF_OPEN) :
    cb.execute now (Except.error e : Except ε Unit) =
      ({ cb with
         state := .OPEN
         failureCount := cb.failureCount + 1
         lastFailureTime := now
         successCount := 0
         nextRetryTime := now + cb.options.resetTimeout }, .opError e, true) := by
  simp [execute, onFailure, transitionTo, hst]

end CircuitBreaker

lemma lookup_append_singleton {β : Type} (l : List (String × β)) (n : String) (b : β)
    (h : l.lookup n = none) : (l ++ [(n, b)]).lookup n = some b := by
  induction l with
  | nil => simp [List.lookup]
  | cons p l ih =>
    obtain ⟨k, v⟩ := p
    simp only [List.cons_append, List.lookup] at h ⊢
    cases hnk : n == k with
    | true => simp [hnk] at h
    | false => simp only [hnk] at h ⊢; exact ih h

/-! ## AI service lemmas -/

lemma trackUsage_ok (pf : Bool) : trackUsage pf = Except.ok () := by
  cases pf <;> rfl

lemma if_trackUsage_ok (b pf : Bool) :
    (if b then trackUsage pf else Except.ok ()) = Except.ok () := by
  cases b <;> simp [trackUsage_ok]

lemma cacheGet_cacheSet (c : ResponseCache) (k : CacheKey)
    (v : AICompletionResponse × Nat) : cacheGet (cacheSet c k v) k = some v := by
  induction c with
  | nil => simp [cacheSet, cacheGet]
  | cons p rest ih =>
    obtain ⟨k', w⟩ := p
    by_cases h : k' = k <;> simp [cacheSet, cacheGet, h, ih]

lemma completeAttempt_ok (req : AICompletionRequest) (opts : CompleteOptions)
    (outcomes : Nat → Except AIError AICompletionResponse) (pf : Bool)
    (now attempt : Nat) (cache : ResponseCache) (response : AICompletionResponse)
    (h : outcomes attempt = Except.ok response) :
    completeAttempt req opts outcomes pf now attempt cache =
      ((if (opts.useCache.getD true) && !req.stream then
          cacheSet cache (getCacheKey req) (response, now) else cache),
        Except.ok response) := by
  simp [completeAttempt, h, if_trackUsage_ok]

lemma completeAttempt_error (req : AICompletionRequest) (opts : CompleteOptions)
    (outcomes : Nat → Except AIError AICompletionResponse) (pf : Bool)
    (now attempt : Nat) (cache : ResponseCache) (e : AIError)
    (h : outcomes attempt = Except.error e) :
    completeAttempt req opts outcomes pf now attempt cache = (cache, Except.error e) := by
  simp [completeAttempt, h]

lemma completeLoop_ok (req : AICompletionRequest) (opts : CompleteOptions)
    (outcomes : Nat → Except AIError AICompletionResponse) (pf : Bool)
    (now mR attempt fuel : Nat) (cache : ResponseCache)
    (response : AICompletionResponse) (h : outcomes attempt = Except.ok response) :
    completeLoop req opts outcomes pf now mR attempt (fuel + 1) cache =
      ⟨(if (opts.useCache.getD true) && !req.stream then
          cacheSet cache (getCacheKey req) (response, now) else cache),
        Except.ok response, 1, []⟩ := by
  simp [completeLoop, completeAttempt_ok req opts outcomes pf now attempt cache response h,
    attemptInvokesProvider, h]

lemma completeLoop_nonretryable (req : AICompletionRequest) (opts : CompleteOptions)
    (outcomes : Nat → Except AIError AICompletionResponse) (pf : Bool)
    (now mR attempt fuel : Nat) (cache : ResponseCache) (e : AIError)
    (h : outcomes attempt = Except.error e)
    (hnr : (e.isCircuitOpen || isNonRetryableError e) = true) :
    completeLoop req opts outcomes pf now mR attempt (fuel + 1) cache =
      ⟨cache, Except.error e, if e.isCircuitOpen then 0 else 1, []⟩ := by
  simp only [completeLoop,
    completeAttempt_error req opts outcomes pf now attempt cache e h,
    attemptInvokesProvider, h, hnr, if_true]
  cases hc : e.isCircuitOpen <;> simp [hc]

lemma completeLoop_retryable_last (req : AICompletionRequest) (opts : CompleteOptions)
    (outcomes : Nat → Except AIError AICompletionResponse) (pf : Bool)
    (now mR attempt fuel : Nat) (cache : ResponseCache) (e : AIError)
    (h : outcomes attempt = Except.error e)
    (hr : (e.isCircuitOpen || isNonRetryableError e) = false)
    (hlast : ¬ attempt < mR) :
    completeLoop req opts outcomes pf now mR attempt (fuel + 1) cache =
      ⟨cache, Except.error e, 1, []⟩ := by
  have hco : e.isCircuitOpen = false := by
    cases hco : e.isCircuitOpen <;> simp [hco] at hr ⊢
  simp [completeLoop, completeAttempt_error req opts outcomes pf now attempt cache e h,
    attemptInvokesProvider, h, hr, hlast, hco]

lemma completeLoop_retryable_step (req : AICompletionRequest) (opts : CompleteOptions)
    (outcomes : Nat → Except AIError AICompletionResponse) (pf : Bool)
    (now mR attempt fuel : Nat) (cache : ResponseCache) (e : AIError)
    (h : outcomes attempt = Except.error e)
    (hr : (e.isCircuitOpen || isNonRetryableError e) = false)
    (hstep : attempt < mR) :
    completeLoop req opts outcomes pf now mR attempt (fuel + 1) cache =
      ⟨(completeLoop req opts outcomes pf now mR (attempt + 1) fuel cache).cache,
        (completeLoop req opts outcomes pf now mR (attempt + 1) fuel cache).result,
        1 + (completeLoop req opts outcomes pf now mR (attempt + 1) fuel cache).providerInvocations,
        backoffDelay attempt ::
          (completeLoop req opts outcomes pf now mR (attempt + 1) fuel cache).sleeps⟩ := by
  rw [Bool.or_eq_false_iff] at hr
  simp [completeLoop, completeAttempt_error req opts outcomes pf now attempt cache e h,
    attemptInvokesProvider, h, hr.1, hr.2, hstep]

lemma range_map_shift (g : Nat → Nat) (a f : Nat) :
    (List.range (f + 1)).map (fun j => g (a + j))
      = g a :: (List.range f).map (fun j => g (a + 1 + j)) := by
  rw [List.range_succ_eq_map]
  simp only [List.map_cons, List.map_map, Nat.add_zero]
  refine congrArg _ (List.map_congr_left ?_)
  intro j _
  simp only [Function.comp]
  exact congrArg g (by omega)

/-- When every attempt from `attempt` through `mR` fails retryably, the loop
performs every remaining attempt, sleeps between consecutive ones, and throws
the last attempt's error. -/
lemma completeLoop_all_retryable (req : AICompletionRequest) (opts : CompleteOptions)
    (outcomes : Nat → Except AIError AICompletionResponse) (pf : Bool)
    (now mR : Nat) (es : Nat → AIError) :
    ∀ (fuel attempt : Nat) (cache : ResponseCache), 1 ≤ fuel →
      attempt + fuel = mR + 1 →
      (∀ i, attempt ≤ i → i ≤ mR → outcomes i = Except.error (es i)
        ∧ ((es i).isCircuitOpen || isNonRetryableError (es i)) = false) →
      completeLoop req opts outcomes pf now mR attempt fuel cache
        = ⟨cache, Except.error (es mR), fuel,
            (List.range (fuel - 1)).map (fun j => backoffDelay (attempt + j))⟩ := by
  intro fuel
  induction fuel with
  | zero => intro attempt cache h1 _ _; omega
  | succ f ih =>
    intro attempt cache _ h2 h3
    have hout := h3 attempt (le_refl attempt) (by omega)
    cases f with
    | zero =>
      have hmr : attempt = mR := by omega
      rw [completeLoop_retryable_last req opts outcomes pf now mR attempt 0 cache
        (es attempt) hout.1 hout.2 (by omega)]
      simp [hmr]
    | succ f' =>
      rw [completeLoop_retryable_step req opts outcomes pf now mR attempt (f' + 1) cache
        (es attempt) hout.1 hout.2 (by omega)]
      rw [ih (attempt + 1) cache (by omega) (by omega)
        (fun i hi hi2 => h3 i (by omega) hi2)]
      simp only [Nat.add_sub_cancel]
      rw [range_map_shift backoffDelay attempt f']
      congr 1
      omega

lemma completeAttempt_stream (req : AICompletionRequest) (opts : CompleteOptions)
    (outcomes : Nat → Except AIError AICompletionResponse) (pf : Bool)
    (now attempt : Nat) (cache cache' : ResponseCache)
    (hstream : req.stream = true) :
    (completeAttempt req opts outcomes pf now attempt cache).1 = cache ∧
    (completeAttempt req opts outcomes pf now attempt cache).2
      = (completeAttempt req opts outcomes pf now attempt cache').2 := by
  cases h : outcomes attempt with
  | error e =>
    simp [completeAttempt_error req opts outcomes pf now attempt _ e h]
  | ok response =>
    simp [completeAttempt_ok req opts outcomes pf now attempt _ response h, hstream]

/-- With the stream flag set, the retry loop never writes the cache and its
outcome does not depend on the cache contents. -/
lemma completeLoop_stream (req : AICompletionRequest) (opts : CompleteOptions)
    (outcomes : Nat → Except AIError AICompletionResponse) (pf : Bool)
    (now mR : Nat) (hstream : req.stream = true) :
    ∀ (fuel attempt : Nat) (cache cache' : ResponseCache),
      (completeLoop req opts outcomes pf now mR attempt fuel cache).cache = cache ∧
      (completeLoop req opts outcomes pf now mR attempt fuel cache).result
        = (completeLoop req opts outcomes pf now mR attempt fuel cache').result ∧
      (completeLoop req opts outcomes pf now mR attempt fuel cache).providerInvocations
        = (completeLoop req opts outcomes pf now mR attempt fuel cache').providerInvocations ∧
      (completeLoop req opts outcomes pf now mR attempt fuel cache).sleeps
        = (completeLoop req opts outcomes pf now mR attempt fuel cache').sleeps := by
  intro fuel
  induction fuel with
  | zero => intro attempt cache cache'; simp [completeLoop]
  | succ f ih =>
    intro attempt cache cache'
    cases h : outcomes attempt with
    | ok response =>
      simp [completeLoop_ok req opts outcomes pf now mR attempt f _ response h, hstream]
    | error e =>
      by_cases hnr : (e.isCircuitOpen || isNonRetryableError e) = true
      · simp [completeLoop_nonretryable req opts outcomes pf now mR attempt f _ e h hnr]
      · have hr : (e.isCircuitOpen || isNonRetryableError e) = false := by
          simpa using hnr
        by_cases hstep : attempt < mR
        · rw [completeLoop_retryable_step req opts outcomes pf now mR attempt f _ e h hr hstep,
            completeLoop_retryable_step req opts outcomes pf now mR attempt f _ e h hr hstep]
          have := ih (attempt + 1) cache cache'
          exact ⟨this.1, by rw [this.2.1], by rw [this.2.2.1], by rw [this.2.2.2]⟩
        · simp [completeLoop_retryable_last req opts outcomes pf now mR attempt f _ e h hr hstep]

lemma completeAttempt_pf (req : AICompletionRequest) (opts : CompleteOptions)
    (outcomes : Nat → Except AIError AICompletionResponse)
    (now attempt : Nat) (cache : ResponseCache) :
    completeAttempt req opts outcomes true now attempt cache
      = completeAttempt req opts outcomes false now attempt cache := by
  cases h : outcomes attempt with
  | error e =>
    rw [completeAttempt_error req opts outcomes true now attempt cache e h,
      completeAttempt_error req opts outcomes false now attempt cache e h]
  | ok response =>
    rw [completeAttempt_ok req opts outcomes true now attempt cache response h,
      completeAttempt_ok req opts outcomes false now attempt cache response h]

lemma completeLoop_pf (req : AICompletionRequest) (opts : CompleteOptions)
    (outcomes : Nat → Except AIError AICompletionResponse) (now mR : Nat) :
    ∀ (fuel attempt : Nat) (cache : ResponseCache),
      completeLoop req opts outcomes true now mR attempt fuel cache
        = completeLoop req opts outcomes false now mR attempt fuel cache := by
  intro fuel
  induction fuel with
  | zero => intro attempt cache; rfl
  | succ f ih =>
    intro attempt cache
    simp only [completeLoop, completeAttempt_pf req opts outcomes now attempt cache]
    cases completeAttempt req opts outcomes false now attempt cache with
    | mk cache' r =>
      cases r with
      | ok response => rfl
      | error e =>
        simp only []
        by_cases hnr : (e.isCircuitOpen || isNonRetryableError e) = true
        · simp [hnr]
        · simp only [hnr, if_false, Bool.not_eq_true] at *
          by_cases hstep : attempt < mR <;> simp [hstep, ih (attempt + 1) cache']

/-! ## Context budgeter lemmas -/

lemma joinContents_length (ms : List ChatMessage) :
    (joinContents ms).length
      = (ms.map (fun m => m.content.length)).sum + ms.length - 1 := by
  induction ms with
  | nil => simp [joinContents]
  | cons m rest ih =>
    cases rest with
    | nil => simp [joinContents]
    | cons m2 rest2 =>
      have hj : joinContents (m :: m2 :: rest2)
          = m.content ++ "\n" ++ joinContents (m2 :: rest2) := rfl
      rw [hj, String.length_append, String.length_append, ih]
      have hone : ("\n" : String).length = 1 := rfl
      simp only [List.map_cons, List.sum_cons, List.length_cons, hone]
      omega

/-- A length-invariant token counter gives the same estimate to message lists
with the same length and the same total content length. -/
lemma estimateTokens_congr (tk : String → Nat)
    (htk : ∀ s t : String, s.length = t.length → tk s = tk t)
    (l₁ l₂ : List ChatMessage) (hlen : l₁.length = l₂.length)
    (hsum : (l₁.map (fun m => m.content.length)).sum
          = (l₂.map (fun m => m.content.length)).sum) :
    estimateTokens tk l₁ = estimateTokens tk l₂ :=
  htk _ _ (by rw [joinContents_length, joinContents_length, hlen, hsum])

/-- The source loop and the spec's greedy pick agree for a length-invariant
token counter: the two test lists hold the same messages. -/
lemma truncateLoop_eq_pick (tk : String → Nat)
    (htk : ∀ s t : String, s.length = t.length → tk s = tk t)
    (sys fin : ChatMessage) (budget : ℤ) :
    ∀ (rev acc : List ChatMessage),
      truncateLoop tk sys fin budget rev acc
        = truncateSpecPick tk sys fin budget rev acc := by
  intro rev
  induction rev with
  | nil => intro acc; rfl
  | cons m rest ih =>
    intro acc
    have he : estimateTokens tk (sys :: (acc ++ [m, fin]))
        = estimateTokens tk (sys :: m :: (acc ++ [fin])) := by
      refine estimateTokens_congr tk htk _ _ (by simp) ?_
      simp
      omega
    simp only [truncateLoop, truncateSpecPick]
    rw [he]
    split
    · exact ih (m :: acc)
    · rfl

/-! ## Claim theorems for the circuit breaker -/

/-- A sample breaker used to witness C1: threshold 2, reset timeout 100. -/
def sampleBreakerC1 : CircuitBreaker :=
  { options := { name := "ai-openai", failureThreshold := 2, successThreshold := 1,
                 timeout := 30000, resetTimeout := 100 } }

/-- Claim C1: from CLOSED with no recorded failures, exactly `failureThreshold`
consecutive failed `execute` calls (the last at instant `t`) leave the breaker
OPEN with `nextRetryTime = t + resetTimeout`, and every `execute` call made
strictly before `nextRetryTime` yields `CircuitBreakerOpenError` without
invoking the operation and without changing the breaker's state or counters. -/
theorem C1_closed_opens_after_threshold_failures {ε : Type} (cb : CircuitBreaker)
    (e : ε) (ts : List Nat) (t : Nat)
    (hst : cb.state = .CLOSED) (hfc : cb.failureCount = 0)
    (hlen : ts.length + 1 = cb.options.failureThreshold) :
    (cb.runFailures (ts ++ [t]) e).state = .OPEN ∧
    (cb.runFailures (ts ++ [t]) e).nextRetryTime = t + cb.options.resetTimeout ∧
    ∀ (γ δ : Type) (now : Nat) (op : Except δ γ),
      now < (cb.runFailures (ts ++ [t]) e).nextRetryTime →
      (cb.runFailures (ts ++ [t]) e).execute now op
        = (cb.runFailures (ts ++ [t]) e, .circuitOpenError, false) := by
  have hmid := CircuitBreaker.runFailures_closed e ts cb hst (by omega)
  rw [CircuitBreaker.runFailures_append]
  have hone : (cb.runFailures ts e).runFailures [t] e
      = ((cb.runFailures ts e).execute t (Except.error e : Except ε Unit)).1 := rfl
  rw [hone, CircuitBreaker.execute_closed_failure _ t e hmid.1,
    if_pos (by rw [hmid.2.1, hmid.2.2]; omega)]
  refine ⟨rfl, by simp [hmid.2.2], ?_⟩
  intro γ δ now op hlt
  exact CircuitBreaker.execute_open_before_retry _ now op rfl hlt

/-- Witness for C1 at a concrete breaker: two failures open it, and a call at
instant 50 (before retry time 120) is rejected with no state change. -/
theorem C1_closed_opens_after_threshold_failures_witness :
    (sampleBreakerC1.runFailures ([10] ++ [20]) "boom").state = .OPEN ∧
    (sampleBreakerC1.runFailures ([10] ++ [20]) "boom").nextRetryTime = 120 ∧
    (sampleBreakerC1.runFailures ([10] ++ [20]) "boom").execute 50
        (Except.ok 7 : Except String Nat)
      = (sampleBreakerC1.runFailures ([10] ++ [20]) "boom", .circuitOpenError, false) := by
  have h := C1_closed_opens_after_threshold_failures sampleBreakerC1 "boom" [10] 20
    rfl rfl (by decide)
  exact ⟨h.1, h.2.1, h.2.2 Nat String 50 (Except.ok 7) (by decide)⟩

/-- A sample breaker used to witness C2: OPEN, success threshold 2. -/
def sampleBreakerC2 : CircuitBreaker :=
  { options := { name := "ai-gemini", failureThreshold := 5, successThreshold := 2,
                 timeout := 30000, resetTimeout := 60000 }
    state := .OPEN
    nextRetryTime := 500 }

/-- Claim C2: an OPEN breaker at or past `nextRetryTime` moves to HALF_OPEN
(`successCount` reset to 0) and invokes the operation; from HALF_OPEN,
`successThreshold` consecutive successes close it with both counters reset to
0; a single failure in HALF_OPEN reopens it with
`nextRetryTime = now + resetTimeout` and `successCount` reset to 0. -/
theorem C2_open_halfopen_cycle :
    (∀ (γ δ : Type) (cb : CircuitBreaker) (now : Nat) (op : Except δ γ),
      cb.state = .OPEN → cb.nextRetryTime ≤ now →
      (cb.execute now op).2.2 = true ∧
      (cb.transitionTo now .HALF_OPEN).state = .HALF_OPEN ∧
      (cb.transitionTo now .HALF_OPEN).successCount = 0 ∧
      (cb.execute now op).1 = (match op with
        | .ok _ => (cb.transitionTo now .HALF_OPEN).onSuccess now
        | .error _ => (cb.transitionTo now .HALF_OPEN).onFailure now)) ∧
    (∀ (cb : CircuitBreaker) (ts : List Nat) (t : Nat),
      cb.state = .HALF_OPEN → cb.successCount = 0 →
      ts.length + 1 = cb.options.successThreshold →
      (cb.runSuccesses (ts ++ [t])).state = .CLOSED ∧
      (cb.runSuccesses (ts ++ [t])).failureCount = 0 ∧
      (cb.runSuccesses (ts ++ [t])).successCount = 0) ∧
    (∀ (ε : Type) (cb : CircuitBreaker) (now : Nat) (e : ε),
      cb.state = .HALF_OPEN →
      cb.execute now (Except.error e : Except ε Unit) =
        ({ cb with
           state := .OPEN
           failureCount := cb.failureCount + 1
           lastFailureTime := now
           successCount := 0
           nextRetryTime := now + cb.options.resetTimeout }, .opError e, true)) := by
  refine ⟨?_, ?_, ?_⟩
  · intro γ δ cb now op hst hge
    rw [CircuitBreaker.execute_open_retry_elapsed cb now op hst hge]
    refine ⟨by cases op <;> rfl, by simp [CircuitBreaker.transitionTo],
      by simp [CircuitBreaker.transitionTo], by cases op <;> rfl⟩
  · intro cb ts t hst hsc hlen
    have hmid := CircuitBreaker.runSuccesses_halfopen ts cb hst (by omega)
    rw [CircuitBreaker.runSuccesses_append]
    have hone : (cb.runSuccesses ts).runSuccesses [t]
        = ((cb.runSuccesses ts).execute t (Except.ok () : Except Unit Unit)).1 := rfl
    rw [hone, CircuitBreaker.execute_halfopen_success _ t hmid.1,
      if_pos (by rw [hmid.2.1, hmid.2.2]; omega)]
    exact ⟨rfl, rfl, rfl⟩
  · intro ε cb now e hst
    exact CircuitBreaker.execute_halfopen_failure cb now e hst

/-- Witness for C2 at a concrete breaker: the call at instant 500 runs the
operation; two successes from HALF_OPEN close the breaker; one failure from
HALF_OPEN reopens it. -/
theorem C2_open_halfopen_cycle_witness :
    (sampleBreakerC2.execute 500 (Except.ok 3 : Except String Nat)).2.2 = true ∧
    (({ sampleBreakerC2 with state := .HALF_OPEN } : CircuitBreaker).runSuccesses
        ([600] ++ [700])).state = .CLOSED ∧
    (({ sampleBreakerC2 with state := .HALF_OPEN } : CircuitBreaker).execute 800
        (Except.error "boom" : Except String Unit)).1.state = .OPEN := by
  have h := C2_open_halfopen_cycle
  refine ⟨(h.1 Nat String sampleBreakerC2 500 (Except.ok 3) rfl (by decide)).1, ?_, ?_⟩
  · exact (h.2.1 { sampleBreakerC2 with state := .HALF_OPEN } [600] 700 rfl rfl
      (by decide)).1
  · rw [h.2.2 String { sampleBreakerC2 with state := .HALF_OPEN } 800 "boom" rfl]

/-- Claim C10: `CircuitBreakerFactory.getOrCreate` is memoizing: a second call
with the same name returns the very breaker stored by the first call and
leaves the factory state unchanged, ignoring the second options argument; and
a first creation stores a breaker configured from the options supplied then
(missing fields defaulted). -/
theorem C10_factory_getOrCreate_memoizes (s : FactoryState) (n : String)
    (o1 o2 : Option PartialBreakerOptions) :
    CircuitBreakerFactory.getOrCreate (CircuitBreakerFactory.getOrCreate s n o1).1 n o2
      = CircuitBreakerFactory.getOrCreate s n o1 ∧
    (s.breakers.lookup n = none →
      (CircuitBreakerFactory.getOrCreate s n o1).2.options = mkFullOptions n o1) := by
  unfold CircuitBreakerFactory.getOrCreate
  cases h : s.breakers.lookup n with
  | some b => simp [h]
  | none =>
    refine ⟨?_, fun _ => ?_⟩ <;>
      simp [h, lookup_append_singleton s.breakers n _ h]

/-- Witness for C10: creating "ai-openai" with threshold 7 and asking again
with threshold 9 returns the stored breaker, still configured with 7. -/
theorem C10_factory_getOrCreate_memoizes_witness :
    CircuitBreakerFactory.getOrCreate
        (CircuitBreakerFactory.getOrCreate ⟨[]⟩ "ai-openai"
          (some { failureThreshold := some 7 })).1 "ai-openai"
        (some { failureThreshold := some 9 })
      = CircuitBreakerFactory.getOrCreate ⟨[]⟩ "ai-openai"
          (some { failureThreshold := some 7 }) ∧
    (CircuitBreakerFactory.getOrCreate ⟨[]⟩ "ai-openai"
        (some { failureThreshold := some 7 })).2.options
      = mkFullOptions "ai-openai" (some { failureThreshold := some 7 }) := by
  have h := C10_factory_getOrCreate_memoizes ⟨[]⟩ "ai-openai"
    (some { failureThreshold := some 7 }) (some { failureThreshold := some 9 })
  exact ⟨h.1, h.2 rfl⟩

/-! ## Claim theorems for the AI service -/

/-- A request used to witness the AI service claims. -/
def sampleRequest : AICompletionRequest :=
  { messages := [⟨ChatRole.user, "hello"⟩] }

/-- A response used to witness the AI service claims. -/
def sampleResponse : AICompletionResponse :=
  { content := "hi"
    finishReason := FinishReason.stop
    usage := ⟨5, 2, 7, 0⟩
    model := "gpt-4o" }

/-- Claim C4: a `CircuitBreakerOpenError` or an error whose `status` lies in
{400, 401, 403, 404} is re-thrown by the retry loop immediately, with no
further attempt and no sleep; in particular, when the first attempt fails
with a non-retryable status, `complete` performs exactly one provider
invocation regardless of `maxRetries`. -/
theorem C4_nonretryable_not_retried :
    (∀ (req : AICompletionRequest) (opts : CompleteOptions)
       (outcomes : Nat → Except AIError AICompletionResponse) (pf : Bool)
       (now mR attempt fuel : Nat) (cache : ResponseCache) (e : AIError),
       outcomes attempt = Except.error e →
       (e.isCircuitOpen || isNonRetryableError e) = true →
       completeLoop req opts outcomes pf now mR attempt (fuel + 1) cache
         = ⟨cache, Except.error e, if e.isCircuitOpen then 0 else 1, []⟩) ∧
    (∀ (cache : ResponseCache) (now : Nat) (req : AICompletionRequest)
       (opts : CompleteOptions) (outcomes : Nat → Except AIError AICompletionResponse)
       (pf : Bool) (e : AIError),
       1 ≤ opts.maxRetries.getD 3 →
       cacheHit cache now req (opts.useCache.getD true) = none →
       outcomes 1 = Except.error e →
       e.isCircuitOpen = false → isNonRetryableError e = true →
       AIService.complete cache now req opts outcomes pf
         = ⟨cache, Except.error e, 1, []⟩) := by
  constructor
  · intro req opts outcomes pf now mR attempt fuel cache e h hnr
    exact completeLoop_nonretryable req opts outcomes pf now mR attempt fuel cache e h hnr
  · intro cache now req opts outcomes pf e hmr hmiss h hco hnr
    obtain ⟨k, hk⟩ : ∃ k, opts.maxRetries.getD 3 = k + 1 :=
      ⟨opts.maxRetries.getD 3 - 1, by omega⟩
    simp only [AIService.complete, hmiss, hk]
    rw [completeLoop_nonretryable req opts outcomes pf now (k + 1) 1 k cache e h
      (by simp [hco, hnr])]
    simp [hco]

/-- Witness for C4: a 401 error on the first attempt is thrown at once, with
one provider invocation and no sleeps, despite `maxRetries = 3`. -/
theorem C4_nonretryable_not_retried_witness :
    AIService.complete [] 0 sampleRequest {}
        (fun _ => Except.error { status := some 401 }) false
      = ⟨[], Except.error { status := some 401 }, 1, []⟩ := by
  exact (C4_nonretryable_not_retried).2 [] 0 sampleRequest {}
    (fun _ => Except.error { status := some 401 }) false { status := some 401 }
    (by decide) rfl rfl rfl (by decide)

/-- Claim C5: a successful attempt returns its result at once with a single
invocation and no sleep; a retryable failure before the last attempt sleeps
exactly `min(1000 * 2^(attempt-1), 10000)` ms and then retries; when every
one of the `maxRetries` attempts fails retryably, `complete` invokes the
provider exactly `maxRetries` times, sleeps between consecutive attempts,
and re-throws the last attempt's error. -/
theorem C5_retry_backoff_schedule :
    (∀ (req : AICompletionRequest) (opts : CompleteOptions)
       (outcomes : Nat → Except AIError AICompletionResponse) (pf : Bool)
       (now mR attempt fuel : Nat) (cache : ResponseCache)
       (response : AICompletionResponse),
       outcomes attempt = Except.ok response →
       (completeLoop req opts outcomes pf now mR attempt (fuel + 1) cache).result
           = Except.ok response ∧
       (completeLoop req opts outcomes pf now mR attempt (fuel + 1) cache).providerInvocations
           = 1 ∧
       (completeLoop req opts outcomes pf now mR attempt (fuel + 1) cache).sleeps = []) ∧
    (∀ (req : AICompletionRequest) (opts : CompleteOptions)
       (outcomes : Nat → Except AIError AICompletionResponse) (pf : Bool)
       (now mR attempt fuel : Nat) (cache : ResponseCache) (e : AIError),
       outcomes attempt = Except.error e →
       (e.isCircuitOpen || isNonRetryableError e) = false →
       attempt < mR →
       completeLoop req opts outcomes pf now mR attempt (fuel + 1) cache
         = ⟨(completeLoop req opts outcomes pf now mR (attempt + 1) fuel cache).cache,
            (completeLoop req opts outcomes pf now mR (attempt + 1) fuel cache).result,
            1 + (completeLoop req opts outcomes pf now mR (attempt + 1) fuel
              cache).providerInvocations,
            min (1000 * 2 ^ (attempt - 1)) 10000 ::
              (completeLoop req opts outcomes pf now mR (attempt + 1) fuel cache).sleeps⟩) ∧
    (∀ (cache : ResponseCache) (now : Nat) (req : AICompletionRequest)
       (opts : CompleteOptions) (outcomes : Nat → Except AIError AICompletionResponse)
       (pf : Bool) (es : Nat → AIError),
       1 ≤ opts.maxRetries.getD 3 →
       cacheHit cache now req (opts.useCache.getD true) = none →
       (∀ i, 1 ≤ i → i ≤ opts.maxRetries.getD 3 →
         outcomes i = Except.error (es i)
           ∧ ((es i).isCircuitOpen || isNonRetryableError (es i)) = false) →
       AIService.complete cache now req opts outcomes pf
         = ⟨cache, Except.error (es (opts.maxRetries.getD 3)), opts.maxRetries.getD 3,
            (List.range (opts.maxRetries.getD 3 - 1)).map
              (fun j => min (1000 * 2 ^ (1 + j - 1)) 10000)⟩) := by
  refine ⟨?_, ?_, ?_⟩
  · intro req opts outcomes pf now mR attempt fuel cache response h
    rw [completeLoop_ok req opts outcomes pf now mR attempt fuel cache response h]
    exact ⟨rfl, rfl, rfl⟩
  · intro req opts outcomes pf now mR attempt fuel cache e h hr hstep
    exact completeLoop_retryable_step req opts outcomes pf now mR attempt fuel cache e h
      hr hstep
  · intro cache now req opts outcomes pf es hmr hmiss hall
    simp only [AIService.complete, hmiss]
    rw [completeLoop_all_retryable req opts outcomes pf now (opts.maxRetries.getD 3) es
      (opts.maxRetries.getD 3) 1 cache (by omega) (by omega)
      (fun i h1 h2 => hall i h1 h2)]
    rfl

/-- Witness for C5: three consecutive 500 errors under the default
`maxRetries = 3` give three invocations, sleeps of 1000 then 2000 ms, and
the last error re-thrown. -/
theorem C5_retry_backoff_schedule_witness :
    AIService.complete [] 0 sampleRequest {}
        (fun _ => Except.error { status := some 500 }) false
      = ⟨[], Except.error { status := some 500 }, 3, [1000, 2000]⟩ := by
  have h := (C5_retry_backoff_schedule).2.2 [] 0 sampleRequest {}
    (fun _ => Except.error { status := some 500 }) false
    (fun _ => { status := some 500 }) (by decide) rfl
    (fun i _ _ => ⟨rfl, rfl⟩)
  exact h.trans (by rfl)

/-- Claim C6: with caching enabled and no stream flag, a second identical
request within the TTL of the first call's successful completion returns the
stored response marked `cached = true`, without touching the provider (so one
invocation across both calls) and without changing the cache; a streaming
request neither consults nor populates the cache. -/
theorem C6_cache_round_trip :
    (∀ (cache : ResponseCache) (now₁ now₂ : Nat) (req : AICompletionRequest)
       (opts : CompleteOptions)
       (outcomes₁ outcomes₂ : Nat → Except AIError AICompletionResponse)
       (pf₁ pf₂ : Bool) (response : AICompletionResponse),
       opts.useCache.getD true = true → req.stream = false →
       1 ≤ opts.maxRetries.getD 3 →
       cacheHit cache now₁ req true = none →
       outcomes₁ 1 = Except.ok response →
       now₂ - now₁ < CACHE_TTL_MS →
       (AIService.complete cache now₁ req opts outcomes₁ pf₁).providerInvocations = 1 ∧
       AIService.complete (AIService.complete cache now₁ req opts outcomes₁ pf₁).cache
           now₂ req opts outcomes₂ pf₂
         = ⟨(AIService.complete cache now₁ req opts outcomes₁ pf₁).cache,
            Except.ok { response with cached := true }, 0, []⟩) ∧
    (∀ (cache cache' : ResponseCache) (now : Nat) (req : AICompletionRequest)
       (opts : CompleteOptions) (outcomes : Nat → Except AIError AICompletionResponse)
       (pf : Bool), req.stream = true →
       (AIService.complete cache now req opts outcomes pf).cache = cache ∧
       (AIService.complete cache now req opts outcomes pf).result
         = (AIService.complete cache' now req opts outcomes pf).result ∧
       (AIService.complete cache now req opts outcomes pf).providerInvocations
         = (AIService.complete cache' now req opts outcomes pf).providerInvocations) := by
  constructor
  · intro cache now₁ now₂ req opts outcomes₁ outcomes₂ pf₁ pf₂ response huc hstream hmr
      hmiss hok httl
    obtain ⟨k, hk⟩ : ∃ k, opts.maxRetries.getD 3 = k + 1 :=
      ⟨opts.maxRetries.getD 3 - 1, by omega⟩
    have h1 : AIService.complete cache now₁ req opts outcomes₁ pf₁
        = ⟨cacheSet cache (getCacheKey req) (response, now₁),
           Except.ok response, 1, []⟩ := by
      simp only [AIService.complete, huc, hmiss, hk]
      rw [completeLoop_ok req opts outcomes₁ pf₁ now₁ (k + 1) 1 k cache response hok]
      simp [huc, hstream]
    have hhit : cacheHit (cacheSet cache (getCacheKey req) (response, now₁)) now₂ req
        (opts.useCache.getD true) = some response := by
      simp [cacheHit, huc, hstream, cacheGet_cacheSet, httl]
    refine ⟨by rw [h1], ?_⟩
    rw [h1]
    simp only [AIService.complete, hhit]
  · intro cache cache' now req opts outcomes pf hstream
    have hnone : ∀ c : ResponseCache,
        cacheHit c now req (opts.useCache.getD true) = none := by
      intro c; simp [cacheHit, hstream]
    have hl := completeLoop_stream req opts outcomes pf now (opts.maxRetries.getD 3)
      hstream (opts.maxRetries.getD 3) 1 cache cache'
    simp only [AIService.complete, hnone]
    exact ⟨hl.1, hl.2.1, hl.2.2.1⟩

/-- Witness for C6: a successful call at time 0 is cached; the identical call
at time 100 returns the stored response marked cached, with zero provider
invocations even though its own provider would fail. -/
theorem C6_cache_round_trip_witness :
    (AIService.complete [] 0 sampleRequest {}
        (fun _ => Except.ok sampleResponse) false).providerInvocations = 1 ∧
    AIService.complete
        (AIService.complete [] 0 sampleRequest {}
          (fun _ => Except.ok sampleResponse) false).cache 100 sampleRequest {}
        (fun _ => Except.error { status := some 500 }) false
      = ⟨(AIService.complete [] 0 sampleRequest {}
            (fun _ => Except.ok sampleResponse) false).cache,
         Except.ok { sampleResponse with cached := true }, 0, []⟩ := by
  exact (C6_cache_round_trip).1 [] 0 100 sampleRequest {}
    (fun _ => Except.ok sampleResponse) (fun _ => Except.error { status := some 500 })
    false false sampleResponse rfl rfl (by decide) rfl rfl (by decide)

/-- Claim C9: `trackUsage` swallows a failure of the recording step, and for a
request carrying a `projectId` the outcome of `complete` — cache, result,
invocation count and sleeps — is identical whether the recording step fails
or succeeds. -/
theorem C9_usage_recording_failure_invisible (cache : ResponseCache) (now : Nat)
    (req : AICompletionRequest) (opts : CompleteOptions)
    (outcomes : Nat → Except AIError AICompletionResponse)
    (_hproj : opts.projectId.isSome = true) :
    trackUsage true = Except.ok () ∧
    AIService.complete cache now req opts outcomes true
      = AIService.complete cache now req opts outcomes false := by
  refine ⟨rfl, ?_⟩
  simp only [AIService.complete]
  cases h : cacheHit cache now req (opts.useCache.getD true) with
  | some resp => rfl
  | none =>
    exact completeLoop_pf req opts outcomes now (opts.maxRetries.getD 3)
      (opts.maxRetries.getD 3) 1 cache

/-- Witness for C9: with a `projectId` present, a failing and a succeeding
recording step produce the same `complete` outcome. -/
theorem C9_usage_recording_failure_invisible_witness :
    AIService.complete [] 0 sampleRequest { projectId := some "p1" }
        (fun _ => Except.ok sampleResponse) true
      = AIService.complete [] 0 sampleRequest { projectId := some "p1" }
        (fun _ => Except.ok sampleResponse) false :=
  (C9_usage_recording_failure_invisible [] 0 sampleRequest { projectId := some "p1" }
    (fun _ => Except.ok sampleResponse) rfl).2

/-! ## Claim theorems for provider resolution and cost -/

/-- Claim C7 counterexample: with OpenAI unavailable and Anthropic and Gemini
registered, `getProvider` preferring OpenAI falls back to Anthropic — the
first registered adapter — not to Gemini, the highest-priority adapter of
the order Gemini > OpenAI > Anthropic that the claim names. -/
theorem C7_counterexample_fallback_is_registration_order :
    getProvider (registeredProviders false true true)
        (initDefaultProvider false true true) (some AIProvider.openai)
      = Except.ok AIProvider.anthropic ∧
    AIProvider.anthropic ≠ AIProvider.gemini := by
  constructor
  · rfl
  · intro h; cases h

/-- Claim C7 amended: `getProvider` returns the preferred (or, with no
preference, the default) provider when registered; otherwise it falls back
to the *first registered* adapter in registration order OpenAI, Anthropic,
Gemini (`Array.from(values())[0]`), not the priority order; it throws
`'No AI provider available'` when the registry is empty.  The priority order
Gemini > OpenAI > Anthropic is used only by `onModuleInit` to pick the
default provider when OpenAI is unavailable. -/
theorem C7_provider_resolution_amended :
    (∀ (providers : List AIProvider) (dflt : AIProvider) (preferred : Option AIProvider),
       providers.contains (preferred.getD dflt) = true →
       getProvider providers dflt preferred = Except.ok (preferred.getD dflt)) ∧
    (∀ (providers : List AIProvider) (dflt : AIProvider) (preferred : Option AIProvider)
       (p : AIProvider),
       providers.contains (preferred.getD dflt) = false →
       providers.head? = some p →
       getProvider providers dflt preferred = Except.ok p) ∧
    (∀ (dflt : AIProvider) (preferred : Option AIProvider),
       getProvider [] dflt preferred = Except.error "No AI provider available") ∧
    (∀ o a g : Bool, initDefaultProvider o a g
       = if o then AIProvider.openai
         else if g then AIProvider.gemini
         else if a then AIProvider.anthropic
         else AIProvider.openai) := by
  refine ⟨?_, ?_, ?_, ?_⟩
  · intro providers dflt preferred h
    simp only [getProvider]
    rw [if_pos h]
  · intro providers dflt preferred p h hp
    simp only [getProvider]
    have hne : ¬ (providers.contains (preferred.getD dflt) = true) := by
      rw [h]; exact fun hc => Bool.noConfusion hc
    rw [if_neg hne, hp]
  · intro dflt preferred
    rfl
  · decide

/-- Witness for C7's amended claim: a registered preferred provider is
returned; an unregistered one falls back to the first registered adapter. -/
theorem C7_provider_resolution_amended_witness :
    getProvider (registeredProviders true true true)
        (initDefaultProvider true true true) (some AIProvider.gemini)
      = Except.ok AIProvider.gemini ∧
    getProvider (registeredProviders false true true)
        (initDefaultProvider false true true) (some AIProvider.openai)
      = Except.ok AIProvider.anthropic := by
  constructor
  · exact (C7_provider_resolution_amended).1 (registeredProviders true true true)
      (initDefaultProvider true true true) (some AIProvider.gemini) (by decide)
  · exact (C7_provider_resolution_amended).2.1 (registeredProviders false true true)
      (initDefaultProvider false true true) (some AIProvider.openai)
      AIProvider.anthropic (by decide) (by decide)

/-- Claim C8: `calculateCost` is the per-million-token formula rounded to six
decimals, with table rates for known models and default rates 5.0 / 15.0 for
unknown ones; for `gpt-4o` (input 2.50, output 10.00), 1000 prompt tokens
and 500 completion tokens cost exactly 0.0075. -/
theorem C8_calculateCost_formula :
    (∀ (m : String) (p c : Nat) (i o : ℚ), MODEL_PRICING.lookup m = some (i, o) →
       calculateCost m p c
         = (jsRound (((p : ℚ) / 1000000 * i + (c : ℚ) / 1000000 * o) * 1000000) : ℚ)
             / 1000000) ∧
    (∀ (m : String) (p c : Nat), MODEL_PRICING.lookup m = none →
       calculateCost m p c
         = (jsRound (((p : ℚ) / 1000000 * 5 + (c : ℚ) / 1000000 * 15) * 1000000) : ℚ)
             / 1000000) ∧
    MODEL_PRICING.lookup "gpt-4o" = some (2.50, 10.00) ∧
    calculateCost "gpt-4o" 1000 500 = 0.0075 := by
  refine ⟨?_, ?_, ?_, ?_⟩
  · intro m p c i o h
    simp [calculateCost, h]
  · intro m p c h
    norm_num [calculateCost, h]
  · norm_num [ MODEL_PRICING, List.lookup]
  · norm_num [calculateCost, MODEL_PRICING, List.lookup, jsRound]

/-- Witness for C8: the table rate for `gpt-4o` and the default rate for an
unknown model, each at 1000 prompt / 500 completion tokens. -/
theorem C8_calculateCost_formula_witness :
    calculateCost "gpt-4o" 1000 500
      = (jsRound ((((1000 : Nat) : ℚ) / 1000000 * 2.50
          + ((500 : Nat) : ℚ) / 1000000 * 10.00) * 1000000) : ℚ) / 1000000 ∧
    calculateCost "not-a-model" 1000 500
      = (jsRound ((((1000 : Nat) : ℚ) / 1000000 * 5
          + ((500 : Nat) : ℚ) / 1000000 * 15) * 1000000) : ℚ) / 1000000 := by
  constructor
  · have hl : MODEL_PRICING.lookup "gpt-4o" = some (2.50, 10.00) := by
      norm_num [ MODEL_PRICING, List.lookup]
    exact (C8_calculateCost_formula).1 "gpt-4o" 1000 500 2.50 10.00 hl
  · have hl : MODEL_PRICING.lookup "not-a-model" = none := by
      decide
    exact (C8_calculateCost_formula).2.1 "not-a-model" 1000 500 hl

/-! ## Claim theorem for the context budgeter -/

/-- Claim C3: for any length-invariant token estimator, `truncateToFit` on a
list `system :: middle ++ [final]` is exactly the spec's algorithm: the list
itself when its estimate fits `getContextLimit(model) - reserveOutputTokens`
(`≤`, not `<`); otherwise the system message, the greedily-chosen newest
suffix of the interior (scanned newest→oldest, stopping at the first message
that does not fit), and the final message; with no interior message,
`[system, final]` is returned even when it alone exceeds the budget. -/
theorem C3_truncateToFit_matches_spec (tk : String → Nat)
    (htk : ∀ s t : String, s.length = t.length → tk s = tk t)
    (model : String) (reserveOutputTokens : Nat) (systemMessage : ChatMessage)
    (middle : List ChatMessage) (lastMessage : ChatMessage) :
    truncateToFit tk model reserveOutputTokens systemMessage middle lastMessage
      = truncateToFitSpec tk model reserveOutputTokens systemMessage middle lastMessage ∧
    ((estimateTokens tk (systemMessage :: middle ++ [lastMessage]) : ℤ)
        ≤ (getContextLimit model : ℤ) - reserveOutputTokens →
      truncateToFit tk model reserveOutputTokens systemMessage middle lastMessage
        = systemMessage :: middle ++ [lastMessage]) ∧
    (middle = [] →
      truncateToFit tk model reserveOutputTokens systemMessage middle lastMessage
        = [systemMessage, lastMessage]) := by
  refine ⟨?_, ?_, ?_⟩
  · simp only [truncateToFit, truncateToFitSpec]
    rw [truncateLoop_eq_pick tk htk systemMessage lastMessage
      ((getContextLimit model : ℤ) - reserveOutputTokens) middle.reverse []]
  · intro h
    simp only [truncateToFit]
    rw [if_pos h]
  · intro h
    subst h
    simp only [truncateToFit]
    split <;> rfl

/-- Witness for C3 with the character-count estimator: a budget of 10 tokens
keeps the system and final messages plus only the newest interior message. -/
theorem C3_truncateToFit_matches_spec_witness :
    truncateToFit String.length "m" 15990 ⟨ChatRole.system, "abc"⟩
        [⟨ChatRole.user, "defg"⟩, ⟨ChatRole.assistant, "hi"⟩] ⟨ChatRole.user, "jk"⟩
      = truncateToFitSpec String.length "m" 15990 ⟨ChatRole.system, "abc"⟩
        [⟨ChatRole.user, "defg"⟩, ⟨ChatRole.assistant, "hi"⟩] ⟨ChatRole.user, "jk"⟩ ∧
    truncateToFit String.length "m" 15990 ⟨ChatRole.system, "abc"⟩
        [⟨ChatRole.user, "defg"⟩, ⟨ChatRole.assistant, "hi"⟩] ⟨ChatRole.user, "jk"⟩
      = [⟨ChatRole.system, "abc"⟩, ⟨ChatRole.assistant, "hi"⟩, ⟨ChatRole.user, "jk"⟩] := by
  constructor
  · exact (C3_truncateToFit_matches_spec String.length (fun s t h => h) "m" 15990
      ⟨ChatRole.system, "abc"⟩ [⟨ChatRole.user, "defg"⟩, ⟨ChatRole.assistant, "hi"⟩]
      ⟨ChatRole.user, "jk"⟩).1
  · decide

end AIScrumMaster
